import Mathlib

/-!
Verification of the lenta_parser repository: a shallow embedding of its two
pipelines (the paginating collector of `main.py` and the concurrent
enrichment pipeline of `oop_test.py`) together with proofs of the spec's
claims about them.

Conventions of the embedding:
* Python dict lookups `d.get(k)` become `Option` fields; `d.get(k, default)`
  becomes `Option.getD`.
* Python `x or y` on values that are `None`/`0.0`/`""` or a meaningful value
  becomes `Option.getD` with the corresponding default (Python's falsy
  `0.0 or 0.0` and `"" or ""` coincide with the default, so no information
  is lost).
* Prices are modelled as integers in the minor currency unit, and division
  by 100 lands in `ℚ` (Python float division is exact on these inputs at the
  granularity the claims discuss; `ℚ` keeps it exact).
* `str.isupper`, `str.split()` and `len` are modelled on the ASCII fragment
  (Lean's `Char.isUpper`/`Char.isLower`/`Char.isWhitespace`), which agrees
  with Python on every name the claims and the code exercise.
-/

namespace Lenta

/-! ## Configuration constants (`config.py`, `oop_test.py`) -/

def PRODUCTS_PER_STORE : Nat := 100

def MIN_BRAND_LENGTH : Nat := 1

def BRAND_ATTRIBUTE_ALIAS : String := "brand"

def BRAND_ATTRIBUTE_NAME : String := "Бренд"

def REQUIRED_COLUMNS : List String :=
  ["id", "name", "regular_price", "promo_price", "brand"]

/-! ## Data model -/

/-- An entry of an item's `attributes` list: a Python dict whose keys
`alias`, `name`, `value` may each be absent. -/
structure Attr where
  attrAlias : Option String
  attrName : Option String
  value : Option String
  deriving DecidableEq, Repr

/-- A raw catalog item as consumed by `main.py`'s `get_products`
formatting step: `item["id"]`, `item.get("name", "")`,
`item["prices"]["priceRegular"]`, `item["prices"]["price"]`,
`item.get("attributes", [])`. -/
structure Item where
  id : Int
  name : Option String
  priceRegular : Int
  price : Int
  attributes : List Attr
  deriving DecidableEq, Repr

/-! ## Brand extraction (`main.py` lines 56-78) -/

/-- The attribute-match test of both pipelines:
`attr.get("alias") == "brand" or attr.get("name") == "Бренд"`. -/
def attrMatches (a : Attr) : Bool :=
  a.attrAlias == some BRAND_ATTRIBUTE_ALIAS || a.attrName == some BRAND_ATTRIBUTE_NAME

/-- The first-match scan of the attribute loop shared by
`LentaAPI._extract_brand` and `ProductParser.extract_brand`. -/
def findBrandAttr : List Attr → Option Attr
  | [] => none
  | a :: rest => if attrMatches a then some a else findBrandAttr rest

/-- A character is cased (model of Python's notion for ASCII letters). -/
def pyIsCased (c : Char) : Bool := c.isUpper || c.isLower

/-- Model of Python `str.isupper()`: at least one cased character and every
cased character upper-case. -/
def pyIsUpper (s : String) : Bool :=
  s.data.any pyIsCased && s.data.all (fun c => !pyIsCased c || c.isUpper)

/-- Model of Python `str.split()` with no argument: split on whitespace
runs, discarding empty tokens. (Split on the character list so that the
kernel can evaluate it on concrete names.) -/
def pySplit (s : String) : List String :=
  ((List.splitOnP Char.isWhitespace s.data).map String.mk).filter (fun t => !(t == ""))

/-- The qualification test of the name heuristic:
`part.isupper() and len(part) > MIN_BRAND_LENGTH`. -/
def isBrandToken (s : String) : Bool :=
  pyIsUpper s && decide (MIN_BRAND_LENGTH < s.length)

/-- The token-collecting loop of `_extract_brand` (lines 68-76): find the
first qualifying token, greedily take qualifying tokens after it, and stop
for good at the first token that breaks the run. -/
def brandRun : List String → List String
  | [] => []
  | p :: rest =>
    if isBrandToken p then p :: rest.takeWhile isBrandToken else brandRun rest

/-- `" ".join(...)`. -/
def joinSpace (l : List String) : String := String.intercalate " " l

/-- `LentaAPI._extract_brand`: attribute lookup first (returning
`attr.get("value", "")` on the first match), then the upper-case-run name
heuristic. -/
def extract_brand (item : Item) : String :=
  match findBrandAttr item.attributes with
  | some a => a.value.getD ""
  | none => joinSpace (brandRun (pySplit (item.name.getD "")))

/-- Spec-side description of the heuristic ("the first maximal run of
qualifying tokens"): drop the non-qualifying leading tokens, then take the
qualifying run. Used only to compare with `brandRun`. -/
def specFirstRun (tokens : List String) : List String :=
  (tokens.dropWhile (fun t => !isBrandToken t)).takeWhile isBrandToken

/-! ## The paginating collector (`main.py` lines 94-162) -/

/-- The normalized record built at `main.py` lines 150-159. -/
structure FormattedProduct where
  id : Int
  name : String
  regular_price : ℚ
  promo_price : ℚ
  brand : String
  deriving DecidableEq, Repr

/-- The per-item formatting of `get_products` (lines 150-159): keep exactly
id / name / prices divided by 100 / brand. -/
def formatItem (item : Item) : FormattedProduct :=
  { id := item.id
    name := item.name.getD ""
    regular_price := (item.priceRegular : ℚ) / 100
    promo_price := (item.price : ℚ) / 100
    brand := extract_brand item }

/-- The source's answer to one listing request: a non-200 status, or a 200
response whose body carries `items` (`data.get("items", [])`). -/
inductive Response where
  | err : Response
  | ok : List Item → Response
  deriving DecidableEq, Repr

/-- The `while` loop of `get_products` (lines 105-144). The source is the
list of responses the session returns to successive requests; a request
beyond the list receives `ok []` (an exhausted source keeps answering with
empty pages). Returns the trace of issued requests as (offset, limit)
pairs, and `none` when the loop aborted with `return []` on a non-200
response, else `some collected`. The guard `len(collected) < total_needed`
is evaluated at the top of every iteration; the next response is matched
first here only to make the recursion structural — when the guard fails the
result `([], some collected)` is the same in every branch, so the order of
the two tests is unobservable. -/
def getLoop (totalNeeded pageSize : Nat) :
    List Response → Nat → List Item → List (Nat × Nat) × Option (List Item)
  | [], offset, collected =>
    if collected.length < totalNeeded then
      ([(offset, min pageSize (totalNeeded - collected.length))], some collected)
    else ([], some collected)
  | Response.err :: _, offset, collected =>
    if collected.length < totalNeeded then
      ([(offset, min pageSize (totalNeeded - collected.length))], none)
    else ([], some collected)
  | Response.ok items :: rest, offset, collected =>
    if collected.length < totalNeeded then
      if items.isEmpty then
        ([(offset, min pageSize (totalNeeded - collected.length))], some collected)
      else
        let remaining := totalNeeded - collected.length
        let collected2 := collected ++ items.take remaining
        if totalNeeded ≤ collected2.length then
          ([(offset, min pageSize remaining)], some collected2)
        else
          let next := getLoop totalNeeded pageSize rest (offset + items.length) collected2
          ((offset, min pageSize remaining) :: next.1, next.2)
    else ([], some collected)

/-- `LentaAPI.get_products` (lines 94-162): run the pagination loop from
offset 0 with nothing collected, return `[]` on an aborted collection, and
otherwise truncate to `total_needed` and format each item. The page size
used in `current_limit` is `PRODUCTS_PER_STORE`, as in line 106. -/
def get_products (totalNeeded : Nat) (resps : List Response) : List FormattedProduct :=
  match (getLoop totalNeeded PRODUCTS_PER_STORE resps 0 []).2 with
  | none => []
  | some collected => (collected.take totalNeeded).map formatItem

/-- The request trace issued by `get_products` for a given source. -/
def requestTrace (totalNeeded : Nat) (resps : List Response) : List (Nat × Nat) :=
  (getLoop totalNeeded PRODUCTS_PER_STORE resps 0 []).1

/-- Number of items the source returned in the pages before request `k`
(the claims' "offset advances by the number of items the source actually
returned"). -/
def returnedBefore (pages : List (List Item)) (k : Nat) : Nat :=
  ((pages.take k).map List.length).sum

/-- A minimal concrete item, for concrete runs of the collector. -/
def mkItem (n : Int) : Item := ⟨n, none, 0, 0, []⟩

/-- The spec's pagination scenario: the source answers with pages of 3, 3
and 0 items. -/
def scenarioResponses : List Response :=
  [Response.ok [mkItem 1, mkItem 2, mkItem 3],
   Response.ok [mkItem 4, mkItem 5, mkItem 6],
   Response.ok []]

/-! ## The concurrent enrichment pipeline (`oop_test.py` lines 147-244) -/

/-- `product_data.get('id')` as the Python value it is: absent/None, an
integer, or a string. Python truthiness (`if not product_id`) distinguishes
`None`, `0` and `""` from everything else. -/
inductive PyId where
  | null : PyId
  | int : Int → PyId
  | str : String → PyId
  deriving DecidableEq, Repr

/-- Python truthiness of an optional id: `None`, `0` and `""` are falsy. -/
def PyId.truthy : PyId → Bool
  | PyId.null => false
  | PyId.int n => decide (n ≠ 0)
  | PyId.str s => !(s == "")

/-- The detail dict returned by `get_product_details`; `extract_brand` only
reads its `attributes` list (`item_detail.get("attributes", [])`). -/
structure ItemDetail where
  attributes : List Attr
  deriving DecidableEq, Repr

/-- An input dict of the enrichment pipeline (`parse_product` reads
`prices` with default `{}`, `priceRegular` / `price` inside it, `id`, and
`name` with default `""`). -/
structure ProductData where
  id : PyId
  name : Option String
  priceRegular : Option Int
  price : Option Int
  deriving DecidableEq, Repr

/-- The `Product` dataclass of `oop_test.py`. -/
structure Product where
  id : PyId
  name : String
  regular_price : ℚ
  promo_price : ℚ
  brand : String
  deriving DecidableEq, Repr

/-- `ProductParser.extract_brand` (lines 153-161): `None` for a falsy
detail dict, else the first matching attribute's `value` (which is itself
`None` when absent), else `None`. -/
def parserExtractBrand (item_detail : Option ItemDetail) : Option String :=
  match item_detail with
  | none => none
  | some d =>
    match findBrandAttr d.attributes with
    | some a => a.value
    | none => none

/-- `ProductParser.parse_product` (lines 163-198), with the detail fetch
(`api.get_product_details`, which returns `None` on any request failure)
passed in as a function. Prices are divided by 100 when present; a falsy id
aborts with `None`; `regular_price or 0.0`, `promo_price or 0.0` and
`brand or ""` become `getD` of the respective defaults. -/
def parse_product (fetch : PyId → Option ItemDetail) (p : ProductData) : Option Product :=
  let regular_price := p.priceRegular.map (fun r => (r : ℚ) / 100)
  let promo_price := p.price.map (fun r => (r : ℚ) / 100)
  if !p.id.truthy then none
  else
    let item_detail := fetch p.id
    let brand := parserExtractBrand item_detail
    some
      { id := p.id
        name := p.name.getD ""
        regular_price := regular_price.getD 0
        promo_price := promo_price.getD 0
        brand := brand.getD "" }

/-- `process_products_parallel` (lines 216-244): every input is submitted
to the pool, each future's result is appended iff it is truthy (a `Product`
instance is always truthy, so iff `parse_product` returned one). The worker
pool only affects the order results are appended in; this model keeps
submission order, which the size and membership claims do not depend on. -/
def process_products_parallel (fetch : PyId → Option ItemDetail)
    (products : List ProductData) : List Product :=
  products.filterMap (parse_product fetch)

/-! ## The result writers (`main.py` lines 23-35, `oop_test.py` lines 206-214) -/

/-- A record as the writers see it: a Python dict, key-value pairs in
insertion order. -/
def Rec : Type := List (String × String)

/-- `row.get(column)` with the empty-cell rendering both writers use for a
missing value. -/
def cellOf (r : Rec) (col : String) : String :=
  match r.find? (fun kv => kv.1 == col) with
  | some kv => kv.2
  | none => ""

/-- Whether every key of the record is one of the writer's field names
(`csv.DictWriter` raises `ValueError` on any other key). -/
def rowKeysOk (r : Rec) : Bool :=
  r.all (fun kv => REQUIRED_COLUMNS.contains kv.1)

/-- `CSVWriter.write_products` (`main.py` lines 23-35): header row of the
five `REQUIRED_COLUMNS`, then `writer.writerows(products[:100])`. A record
carrying a key outside the field names makes `DictWriter` raise
(`extrasaction='raise'` default), modelled as `none`; otherwise the rows
written are the first 100 records projected to the five columns in fixed
order. -/
def write_products (products : List Rec) : Option (List (List String)) :=
  let rows := products.take 100
  if rows.all rowKeysOk then
    some (REQUIRED_COLUMNS :: rows.map (fun r => REQUIRED_COLUMNS.map (cellOf r)))
  else none

/-- `DataSaver.save_products` (`oop_test.py` lines 206-214):
`pd.DataFrame(...)[REQUIRED_COLUMNS].to_csv(...)`. The column selection
raises `KeyError` (modelled `none`) when a required column appears in no
record (in particular on an empty frame); otherwise every record is
written — no truncation — projected to the five columns in fixed order,
extra keys dropped, missing cells rendered empty. -/
def save_products (products : List Rec) : Option (List (List String)) :=
  if REQUIRED_COLUMNS.all (fun c => products.any (fun r => r.any (fun kv => kv.1 == c))) then
    some (REQUIRED_COLUMNS :: products.map (fun r => REQUIRED_COLUMNS.map (cellOf r)))
  else none

/-- The requests a run of fully-consumed pages produces: one request per
page, at the current offset, with limit `min ps (N - collectedSoFar)`.
Offsets and collected counts both advance by the full page length. -/
def traceOf (N ps : Nat) : List (List Item) → Nat → Nat → List (Nat × Nat)
  | [], _, _ => []
  | pg :: pgs, offset, clen =>
    (offset, min ps (N - clen)) :: traceOf N ps pgs (offset + pg.length) (clen + pg.length)

/-! ## Lemmas on the pagination loop -/

lemma getLoop_stop (N ps : Nat) (resps : List Response) (offset : Nat)
    (collected : List Item) (h : ¬collected.length < N) :
    getLoop N ps resps offset collected = ([], some collected) := by
  match resps with
  | [] => rw [getLoop]; simp [h]
  | Response.err :: rest => rw [getLoop]; simp [h]
  | Response.ok items :: rest => rw [getLoop]; simp [h]

lemma getLoop_nil (N ps : Nat) (offset : Nat) (collected : List Item)
    (h : collected.length < N) :
    getLoop N ps [] offset collected =
      ([(offset, min ps (N - collected.length))], some collected) := by
  rw [getLoop]
  simp [h]

lemma getLoop_err (N ps : Nat) (rest : List Response) (offset : Nat)
    (collected : List Item) (h : collected.length < N) :
    getLoop N ps (Response.err :: rest) offset collected =
      ([(offset, min ps (N - collected.length))], none) := by
  rw [getLoop]
  simp [h]

/-- One loop iteration on a non-empty page that does not yet satisfy the
target: everything is appended, the offset advances by the page length, and
the loop continues. -/
lemma getLoop_ok_step (N ps : Nat) (items : List Item) (rest : List Response)
    (offset : Nat) (collected : List Item) (hne : items ≠ [])
    (hlt : collected.length + items.length < N) :
    getLoop N ps (Response.ok items :: rest) offset collected =
      ((offset, min ps (N - collected.length)) ::
          (getLoop N ps rest (offset + items.length) (collected ++ items)).1,
        (getLoop N ps rest (offset + items.length) (collected ++ items)).2) := by
  have hcl : collected.length < N := lt_of_le_of_lt (Nat.le_add_right _ _) hlt
  have htake : items.take (N - collected.length) = items :=
    List.take_of_length_le (by omega)
  have hfull : ¬N ≤ (collected ++ items).length := by
    simp only [List.length_append]
    omega
  rw [getLoop]
  simp only [if_pos hcl, List.isEmpty_eq_true, hne, if_false, htake, hfull]

/-- Master lemma: a block of non-empty pages whose total still leaves the
target unsatisfied is consumed whole, one request per page, after which the
loop goes on with the remaining responses from the advanced state. -/
lemma getLoop_consume_pages (N ps : Nat) :
    ∀ (pages : List (List Item)) (rest : List Response) (offset : Nat)
      (collected : List Item),
      (∀ pg ∈ pages, pg ≠ []) →
      collected.length + (pages.map List.length).sum < N →
      getLoop N ps (pages.map Response.ok ++ rest) offset collected =
        (traceOf N ps pages offset collected.length ++
            (getLoop N ps rest (offset + (pages.map List.length).sum)
              (collected ++ pages.flatten)).1,
          (getLoop N ps rest (offset + (pages.map List.length).sum)
            (collected ++ pages.flatten)).2) := by
  intro pages
  induction pages with
  | nil =>
    intro rest offset collected _ _
    simp [traceOf]
  | cons pg pgs ih =>
    intro rest offset collected hne hlt
    have hpg : pg ≠ [] := hne pg (List.mem_cons_self _ _)
    have hlt2 : collected.length + (pg.length + (pgs.map List.length).sum) < N := by
      simpa using hlt
    have hstep := getLoop_ok_step N ps pg (pgs.map Response.ok ++ rest) offset collected hpg
      (by omega)
    have hrec := ih rest (offset + pg.length) (collected ++ pg)
      (fun q hq => hne q (List.mem_cons_of_mem _ hq))
      (by simp only [List.length_append]; omega)
    simp only [List.map_cons, List.cons_append, hstep, hrec, traceOf, List.length_append,
      List.flatten, List.cons_append]
    simp [List.append_assoc, Nat.add_assoc]

/-- A full run over non-empty pages whose total is below the target: one
request per page plus a final request answered by the exhausted source,
collecting everything the pages held. -/
lemma getLoop_exhaust (N ps : Nat) (pages : List (List Item))
    (hne : ∀ pg ∈ pages, pg ≠ [])
    (hlt : (pages.map List.length).sum < N) :
    getLoop N ps (pages.map Response.ok) 0 [] =
      (traceOf N ps pages 0 0 ++
          [((pages.map List.length).sum,
            min ps (N - (pages.map List.length).sum))],
        some pages.flatten) := by
  have hjoin : pages.flatten.length = (pages.map List.length).sum := by
    simp [List.length_flatten]
  have h0 : (([] : List Item)).length + (pages.map List.length).sum < N := by simpa using hlt
  have hmaster := getLoop_consume_pages N ps pages [] 0 [] hne h0
  rw [List.append_nil] at hmaster
  rw [hmaster]
  rw [getLoop_nil N ps _ _ (by simp [hjoin]; omega)]
  simp [hjoin]

lemma traceOf_length (N ps : Nat) :
    ∀ (pages : List (List Item)) (offset clen : Nat),
      (traceOf N ps pages offset clen).length = pages.length := by
  intro pages
  induction pages with
  | nil => intro offset clen; rfl
  | cons pg pgs ih => intro offset clen; simp [traceOf, ih]

/-- Entry `k` of a fully-consumed trace: offset advanced by everything the
source returned before, limit recomputed from the items collected so
far. -/
lemma traceOf_get (N ps : Nat) :
    ∀ (pages : List (List Item)) (k offset clen : Nat), k < pages.length →
      (traceOf N ps pages offset clen)[k]? =
        some (offset + returnedBefore pages k,
          min ps (N - (clen + returnedBefore pages k))) := by
  intro pages
  induction pages with
  | nil => intro k offset clen hk; simp at hk
  | cons pg pgs ih =>
    intro k offset clen hk
    cases k with
    | zero => simp [traceOf, returnedBefore]
    | succ k =>
      have hk2 : k < pgs.length := by simpa using hk
      simp [traceOf, ih k _ _ hk2, returnedBefore, List.take_succ_cons,
        List.map_take, Nat.add_assoc]

lemma returnedBefore_full (pages : List (List Item)) :
    returnedBefore pages pages.length = (pages.map List.length).sum := by
  simp [returnedBefore, List.take_length]

/-! ## Claim theorems: pagination -/

/-- C1: `get_products` returns at most `total_needed` records for every
source; and when the source's non-empty pages hold fewer than
`total_needed` items in total (after which it answers with empty pages), it
returns exactly as many records as the source yielded. -/
theorem C1_collect_bounded :
    (∀ (N : Nat) (resps : List Response), (get_products N resps).length ≤ N) ∧
    (∀ (N : Nat) (pages : List (List Item)),
      (∀ pg ∈ pages, pg ≠ []) →
      (pages.map List.length).sum < N →
      (get_products N (pages.map Response.ok)).length =
        (pages.map List.length).sum) := by
  constructor
  · intro N resps
    unfold get_products
    cases h : (getLoop N PRODUCTS_PER_STORE resps 0 []).2 with
    | none => simp
    | some c =>
      simp only [List.length_map, List.length_take]
      exact Nat.min_le_left _ _
  · intro N pages hne hlt
    have hjoin : pages.flatten.length = (pages.map List.length).sum := by
      simp [List.length_flatten]
    unfold get_products
    rw [getLoop_exhaust N PRODUCTS_PER_STORE pages hne hlt]
    simp only [List.length_map, List.length_take, hjoin]
    omega

/-- Witness: a source with a single one-item page and target 2 yields
exactly one record. -/
theorem C1_collect_bounded_witness :
    (get_products 2 ([[mkItem 1]].map Response.ok)).length =
      ([[mkItem 1]].map List.length).sum :=
  C1_collect_bounded.2 2 [[mkItem 1]] (by decide) (by decide)

/-- C2: for a run of fully-consumed pages, request `k` carries the offset
advanced by everything the source returned in the earlier pages (which, in
such a run, is also the number of collected items) and the limit
`min(pageSize, requiredCount − collected)`; and in the spec's scenario —
target 5, source pages of 3, 3, 0 items — exactly two requests are issued,
`(offset 0, limit 5)` then `(offset 3, limit 2)`. -/
theorem C2_request_trace :
    (∀ (N : Nat) (pages : List (List Item)) (k : Nat),
      (∀ pg ∈ pages, pg ≠ []) →
      (pages.map List.length).sum < N →
      k ≤ pages.length →
      (requestTrace N (pages.map Response.ok))[k]? =
        some (returnedBefore pages k,
          min PRODUCTS_PER_STORE (N - returnedBefore pages k))) ∧
    requestTrace 5 scenarioResponses = [(0, 5), (3, 2)] := by
  constructor
  · intro N pages k hne hlt hk
    unfold requestTrace
    rw [getLoop_exhaust N PRODUCTS_PER_STORE pages hne hlt]
    rcases Nat.lt_or_ge k pages.length with hlt2 | hge
    · rw [List.getElem?_append_left (by rw [traceOf_length]; exact hlt2)]
      rw [traceOf_get N PRODUCTS_PER_STORE pages k 0 0 hlt2]
      simp
    · have hkeq : k = pages.length := Nat.le_antisymm hk hge
      rw [hkeq, returnedBefore_full,
        show pages.length = (traceOf N PRODUCTS_PER_STORE pages 0 0).length from
          (traceOf_length N PRODUCTS_PER_STORE pages 0 0).symm,
        List.getElem?_concat_length]
  · decide

/-- Witness: the general trace conjunct at a one-page source, both at the
page's request and at the final exhausted-source request. -/
theorem C2_request_trace_witness :
    (requestTrace 2 ([[mkItem 1]].map Response.ok))[1]? =
      some (returnedBefore [[mkItem 1]] 1,
        min PRODUCTS_PER_STORE (2 - returnedBefore [[mkItem 1]] 1)) :=
  C2_request_trace.1 2 [[mkItem 1]] 1 (by decide) (by decide) (by decide)

/-- C7: a non-200 answer to any request of a collection makes
`get_products` return the empty list — items already collected from the
earlier pages are discarded; the error is handled by returning, not by
raising. -/
theorem C7_abort_on_transport_error (N : Nat) (pages : List (List Item))
    (rest : List Response) (hne : ∀ pg ∈ pages, pg ≠ [])
    (hlt : (pages.map List.length).sum < N) :
    get_products N (pages.map Response.ok ++ Response.err :: rest) = [] := by
  have hjoin : pages.flatten.length = (pages.map List.length).sum := by
    simp [List.length_flatten]
  have h0 : (([] : List Item)).length + (pages.map List.length).sum < N := by
    simpa using hlt
  have hmaster :=
    getLoop_consume_pages N PRODUCTS_PER_STORE pages (Response.err :: rest) 0 [] hne h0
  unfold get_products
  rw [hmaster, getLoop_err N PRODUCTS_PER_STORE rest _ _ (by simp [hjoin]; omega)]

/-- Witness: one page of one item is collected, then the second request
fails; the whole collection comes back empty. -/
theorem C7_abort_on_transport_error_witness :
    get_products 5 [Response.ok [mkItem 1], Response.err] = [] :=
  C7_abort_on_transport_error 5 [[mkItem 1]] [] (by decide) (by decide)

/-! ## Lemmas on brand extraction -/

/-- The attribute scan returns the first matching attribute in list
order. -/
lemma findBrandAttr_append (pre : List Attr) (a : Attr) (post : List Attr)
    (hpre : ∀ b ∈ pre, attrMatches b = false) (ha : attrMatches a = true) :
    findBrandAttr (pre ++ a :: post) = some a := by
  induction pre with
  | nil => simp [findBrandAttr, ha]
  | cons b pre ih =>
    have hb : attrMatches b = false := hpre b (List.mem_cons_self b pre)
    simp only [List.cons_append, findBrandAttr, hb, if_false]
    exact ih fun c hc => hpre c (List.mem_cons_of_mem b hc)

/-- The token loop of `_extract_brand` computes exactly the spec's "first
maximal qualifying run": drop the non-qualifying leading tokens, take the
qualifying run after them. -/
lemma brandRun_eq_specFirstRun : ∀ ts : List String, brandRun ts = specFirstRun ts := by
  intro ts
  induction ts with
  | nil => rfl
  | cons p rest ih =>
    by_cases hp : isBrandToken p = true
    · simp [brandRun, specFirstRun, hp, List.dropWhile, List.takeWhile]
    · have hp2 : isBrandToken p = false := Bool.eq_false_iff.mpr hp
      simp [brandRun, hp2, ih, specFirstRun, List.dropWhile]

/-- When no token qualifies, the run is empty. -/
lemma brandRun_eq_nil (ts : List String) (h : ∀ t ∈ ts, isBrandToken t = false) :
    brandRun ts = [] := by
  induction ts with
  | nil => rfl
  | cons p rest ih =>
    have hp := h p (List.mem_cons_self p rest)
    simp only [brandRun, hp, if_false]
    exact ih fun t ht => h t (List.mem_cons_of_mem p ht)

/-! ## Claim theorems: brand extraction -/

/-- C3: an item whose attribute list contains a matching attribute (alias
equals the canonical brand alias, or display name equals the canonical
brand display name) gets the first such attribute's value as its brand,
exactly and regardless of its name — in the inline pipeline
(`LentaAPI._extract_brand`) and in the enrichment pipeline
(`ProductParser.extract_brand`). -/
theorem C3_attribute_brand_wins (pre post : List Attr) (a : Attr) (v : String)
    (idv : Int) (nm : Option String) (pr pp : Int)
    (hpre : ∀ b ∈ pre, attrMatches b = false) (ha : attrMatches a = true)
    (hv : a.value = some v) :
    extract_brand ⟨idv, nm, pr, pp, pre ++ a :: post⟩ = v ∧
      parserExtractBrand (some ⟨pre ++ a :: post⟩) = some v := by
  have hfind := findBrandAttr_append pre a post hpre ha
  constructor
  · simp [extract_brand, hfind, hv]
  · simp [parserExtractBrand, hfind, hv]

/-- Witness: the spec's own example — attributes
`[{alias:"brand", value:"Pepsi"}]`, name `"PEPSI MAX"` — yields brand
`"Pepsi"` in both pipelines. -/
theorem C3_attribute_brand_wins_witness :
    extract_brand ⟨2, some "PEPSI MAX", 0, 0, [⟨some "brand", none, some "Pepsi"⟩]⟩ = "Pepsi" ∧
      parserExtractBrand (some ⟨[⟨some "brand", none, some "Pepsi"⟩]⟩) = some "Pepsi" :=
  C3_attribute_brand_wins [] [] ⟨some "brand", none, some "Pepsi"⟩ "Pepsi"
    2 (some "PEPSI MAX") 0 0 (fun b hb => absurd hb (List.not_mem_nil b)) (by decide) rfl

/-- C4: on an item with no matching brand attribute, `_extract_brand` is
total and returns the first maximal run of whitespace-separated,
fully-upper-case, longer-than-threshold name tokens joined with single
spaces; when no token qualifies (in particular for an empty name) it
returns the empty string; the name `"COCA COLA Light"` with no attributes
yields `"COCA COLA"`. -/
theorem C4_name_heuristic :
    (∀ item : Item, findBrandAttr item.attributes = none →
      extract_brand item = joinSpace (specFirstRun (pySplit (item.name.getD "")))) ∧
    (∀ item : Item, findBrandAttr item.attributes = none →
      (∀ t ∈ pySplit (item.name.getD ""), isBrandToken t = false) →
      extract_brand item = "") ∧
    extract_brand ⟨1, some "COCA COLA Light", 0, 0, []⟩ = "COCA COLA" := by
  refine ⟨fun item hno => ?_, fun item hno htok => ?_, by decide⟩
  · simp [extract_brand, hno, brandRun_eq_specFirstRun]
  · simp [extract_brand, hno, brandRun_eq_nil _ htok, joinSpace, String.intercalate]

/-- Witness: the heuristic conjuncts applied to the spec's example item and
to an item whose name has no qualifying token. -/
theorem C4_name_heuristic_witness :
    extract_brand ⟨1, some "COCA COLA Light", 0, 0, []⟩
        = joinSpace (specFirstRun (pySplit "COCA COLA Light")) ∧
      extract_brand ⟨3, some "abc de", 0, 0, []⟩ = "" :=
  ⟨C4_name_heuristic.1 ⟨1, some "COCA COLA Light", 0, 0, []⟩ rfl,
    C4_name_heuristic.2.1 ⟨3, some "abc de", 0, 0, []⟩ rfl (by decide)⟩

/-- C10: in the inline pipeline, an attribute that matches the brand test
but carries no `value` key makes `_extract_brand` return the empty string
(`attr.get("value", "")`) immediately, whatever the item's name — the name
heuristic is not consulted once an attribute matches. -/
theorem C10_matching_attr_without_value (pre post : List Attr) (a : Attr)
    (idv : Int) (nm : Option String) (pr pp : Int)
    (hpre : ∀ b ∈ pre, attrMatches b = false) (ha : attrMatches a = true)
    (hv : a.value = none) :
    extract_brand ⟨idv, nm, pr, pp, pre ++ a :: post⟩ = "" := by
  have hfind := findBrandAttr_append pre a post hpre ha
  simp [extract_brand, hfind, hv]

/-- Witness: an item named `"COCA COLA"` (the heuristic alone would return
`"COCA COLA"`, as the extra conjunct shows) with a value-less matching
attribute yields the empty string. -/
theorem C10_matching_attr_without_value_witness :
    extract_brand ⟨5, some "COCA COLA", 0, 0, [⟨some "brand", none, none⟩]⟩ = "" ∧
      extract_brand ⟨5, some "COCA COLA", 0, 0, []⟩ = "COCA COLA" :=
  ⟨C10_matching_attr_without_value [] [] ⟨some "brand", none, none⟩ 5 (some "COCA COLA") 0 0
      (fun b hb => absurd hb (List.not_mem_nil b)) (by decide) rfl,
    by decide⟩

/-! ## Claim theorems: the concurrent enrichment pipeline -/

/-- A detail fetch that fails on every id (`get_product_details` returning
`None`). -/
def failFetch : PyId → Option ItemDetail := fun _ => none

/-- A well-formed input item with id 7, for the claims' failure
scenario. -/
def p7 : ProductData := ⟨PyId.int 7, some "item7", some 100, some 200⟩

/-- C5 counterexample: item 7's detail fetch fails (`failFetch` returns
`none` for id 7), yet the item is NOT dropped — the pipeline still emits a
record for it, with an empty brand. The claim that a fetch-failed item is
absent from the enrichment output is therefore false. -/
theorem C5_counterexample_fetch_failure_not_dropped :
    failFetch (PyId.int 7) = none ∧
      process_products_parallel failFetch [p7] =
        [⟨PyId.int 7, "item7", 1, 2, ""⟩] := by
  refine ⟨rfl, ?_⟩
  simp [process_products_parallel, parse_product, failFetch, p7, parserExtractBrand,
    PyId.truthy]
  norm_num

/-- C5 (amended): `parse_product` yields a record exactly for the items
with a truthy identifier — a detail-fetch failure never drops an item (it
only loses the brand) — so the enrichment output size is the input size
minus the items with a missing (falsy) identifier, for every fetch
behaviour. -/
theorem C5_enrich_drops_only_missing_ids :
    (∀ (fetch : PyId → Option ItemDetail) (p : ProductData),
      (parse_product fetch p).isSome = p.id.truthy) ∧
    (∀ (fetch : PyId → Option ItemDetail) (products : List ProductData),
      (process_products_parallel fetch products).length =
        (products.filter (fun p => p.id.truthy)).length) := by
  have hsome : ∀ (fetch : PyId → Option ItemDetail) (p : ProductData),
      (parse_product fetch p).isSome = p.id.truthy := by
    intro fetch p
    by_cases ht : p.id.truthy = true
    · simp [parse_product, ht]
    · simp only [Bool.not_eq_true] at ht
      simp [parse_product, ht]
  refine ⟨hsome, fun fetch products => ?_⟩
  induction products with
  | nil => rfl
  | cons p ps ih =>
    by_cases ht : p.id.truthy = true
    · have hp : (parse_product fetch p).isSome = true := by rw [hsome fetch p, ht]
      rcases Option.isSome_iff_exists.mp hp with ⟨prod, hprod⟩
      simp [process_products_parallel, List.filterMap_cons, hprod, ht,
        List.filter_cons] at ih ⊢
      exact ih
    · simp only [Bool.not_eq_true] at ht
      have hp : parse_product fetch p = none := by
        have := hsome fetch p
        rw [ht] at this
        exact Option.not_isSome_iff_eq_none.mp (by simp [this])
      simp [process_products_parallel, List.filterMap_cons, hp, ht,
        List.filter_cons] at ih ⊢
      exact ih

/-- C9: an identifier that is present but falsy (`0` or `""`) fails the
`if not product_id` check exactly like a missing one: `parse_product`
returns no record and the item disappears from the pipeline's output. -/
theorem C9_falsy_id_dropped (fetch : PyId → Option ItemDetail) (p : ProductData)
    (ps : List ProductData) (h : p.id = PyId.int 0 ∨ p.id = PyId.str "") :
    parse_product fetch p = none ∧
      process_products_parallel fetch (p :: ps) =
        process_products_parallel fetch ps := by
  have hnone : parse_product fetch p = none := by
    rcases h with h | h <;> simp [parse_product, PyId.truthy, h]
  exact ⟨hnone, by simp [process_products_parallel, List.filterMap_cons, hnone]⟩

/-- Witness: items with id `0` and id `""` are both dropped. -/
theorem C9_falsy_id_dropped_witness :
    (parse_product failFetch ⟨PyId.int 0, none, none, none⟩ = none ∧
      process_products_parallel failFetch [⟨PyId.int 0, none, none, none⟩] =
        process_products_parallel failFetch []) ∧
    parse_product failFetch ⟨PyId.str "", none, none, none⟩ = none :=
  ⟨C9_falsy_id_dropped failFetch ⟨PyId.int 0, none, none, none⟩ [] (Or.inl rfl),
    (C9_falsy_id_dropped failFetch ⟨PyId.str "", none, none, none⟩ [] (Or.inr rfl)).1⟩

/-- C6: both pipelines divide each present price field by exactly 100 — the
inline formatter unconditionally, the enrichment parser when the field is
present, with `0.0` for a missing field — and the subunit value 12999 comes
out as 129.99. -/
theorem C6_price_normalization :
    (∀ item : Item,
      (formatItem item).regular_price = (item.priceRegular : ℚ) / 100 ∧
      (formatItem item).promo_price = (item.price : ℚ) / 100) ∧
    (∀ (fetch : PyId → Option ItemDetail) (p : ProductData) (prod : Product),
      parse_product fetch p = some prod →
      prod.regular_price =
        (match p.priceRegular with
          | some r => (r : ℚ) / 100
          | none => 0) ∧
      prod.promo_price =
        (match p.price with
          | some r => (r : ℚ) / 100
          | none => 0)) ∧
    (formatItem ⟨1, none, 12999, 12999, []⟩).regular_price = (129.99 : ℚ) ∧
    (parse_product failFetch ⟨PyId.int 1, none, some 12999, some 12999⟩).map
      Product.promo_price = some (129.99 : ℚ) := by
  refine ⟨fun item => ⟨rfl, rfl⟩, fun fetch p prod h => ?_, by norm_num [formatItem], ?_⟩
  · by_cases ht : p.id.truthy = true
    · simp only [parse_product, ht, Bool.not_true, Bool.false_eq_true, if_false,
        Option.some.injEq] at h
      subst h
      constructor
      · cases hr : p.priceRegular <;> simp [hr]
      · cases hr : p.price <;> simp [hr]
    · simp only [Bool.not_eq_true] at ht
      simp [parse_product, ht] at h
  · simp [parse_product, failFetch, parserExtractBrand, PyId.truthy]
    norm_num

/-- Witness: the enrichment conjunct applied to a concrete parsed item with
subunit prices 12999. -/
theorem C6_price_normalization_witness :
    (⟨PyId.int 1, "", (12999 : ℚ) / 100, (12999 : ℚ) / 100, ""⟩ : Product).regular_price =
      (match some (12999 : Int) with
        | some r => (r : ℚ) / 100
        | none => (0 : ℚ)) :=
  (C6_price_normalization.2.1 failFetch ⟨PyId.int 1, none, some 12999, some 12999⟩
      ⟨PyId.int 1, "", (12999 : ℚ) / 100, (12999 : ℚ) / 100, ""⟩
      (by simp [parse_product, failFetch, parserExtractBrand, PyId.truthy])).1

/-! ## Claim theorems: result writers -/

/-- C8 counterexample: a record carrying a key outside the five field names
makes `CSVWriter.write_products` fail (`csv.DictWriter` raises
`ValueError`, default `extrasaction='raise'`) — the extra field is not
silently dropped, and nothing is persisted for this input. -/
theorem C8_counterexample_extra_field_raises :
    write_products [[("id", "1"), ("extra", "x")]] = none := by decide

/-- C8 (amended): for inputs whose keys all lie among the five field names,
the CSV writer emits the fixed 5-column header followed by the first 100
records — silent truncation — projected to exactly the five fields in fixed
order; every emitted row has width 5; a record with an extra key among the
first 100 makes the write fail instead of dropping the key. The concurrent
pipeline's `DataSaver.save_products` does drop extra keys and keeps the
5-column fixed order, but writes all records without truncation. -/
theorem C8_writer_behaviour :
    (∀ products : List Rec, (∀ r ∈ products.take 100, rowKeysOk r = true) →
      write_products products =
        some (REQUIRED_COLUMNS ::
          (products.take 100).map (fun r => REQUIRED_COLUMNS.map (cellOf r)))) ∧
    (∀ (products : List Rec) (out : List (List String)),
      write_products products = some out →
      out.length = 1 + min 100 products.length ∧
      out.head? = some REQUIRED_COLUMNS ∧
      ∀ row ∈ out, row.length = 5) ∧
    (∀ (products : List Rec) (r : Rec), r ∈ products.take 100 →
      ¬rowKeysOk r = true → write_products products = none) ∧
    (∀ products : List Rec,
      REQUIRED_COLUMNS.all
          (fun c => products.any (fun r => r.any (fun kv => kv.1 == c))) = true →
      save_products products =
        some (REQUIRED_COLUMNS ::
          products.map (fun r => REQUIRED_COLUMNS.map (cellOf r)))) := by
  refine ⟨fun products hok => ?_, fun products out hout => ?_,
    fun products r hr hbad => ?_, fun products hcols => ?_⟩
  · simp only [write_products]
    rw [if_pos (List.all_eq_true.mpr hok)]
  · simp only [write_products] at hout
    by_cases hall : (products.take 100).all rowKeysOk = true
    · rw [if_pos hall] at hout
      obtain rfl : REQUIRED_COLUMNS ::
          (products.take 100).map (fun r => REQUIRED_COLUMNS.map (cellOf r)) = out :=
        Option.some.injEq _ _ ▸ hout
      refine ⟨?_, rfl, ?_⟩
      · simp [List.length_take, Nat.add_comm]
      · intro row hrow
        rcases List.mem_cons.mp hrow with h | h
        · subst h; rfl
        · rcases List.mem_map.mp h with ⟨r, _, rfl⟩
          simp [REQUIRED_COLUMNS]
    · rw [if_neg hall] at hout
      exact absurd hout (by simp)
  · simp only [write_products]
    rw [if_neg]
    intro hall
    exact hbad (List.all_eq_true.mp hall r hr)
  · simp only [save_products]
    rw [if_pos hcols]

/-- Witness: a single legal record is written with header and its five
cells. -/
theorem C8_writer_behaviour_witness :
    write_products [[("id", "1")]] =
      some (REQUIRED_COLUMNS ::
        ([[("id", "1")]].take 100).map (fun r => REQUIRED_COLUMNS.map (cellOf r))) :=
  C8_writer_behaviour.1 [[("id", "1")]] (by decide)

end Lenta
